import Mathlib

/-!
# Verification of the BPU scraper's CSV → upsert-batch transformation

This file gives a shallow embedding of the CSV-record normalization and
upsert-batch-building logic of `src/scraper.ts` (the `records.map(...)
.filter(...)` pipeline producing `dataToUpsert`, lines 1059–1119), together
with models of the JavaScript host primitives it uses (`String.prototype.trim`,
`String.prototype.toLowerCase`, `String.prototype.replace('$','')`,
`parseFloat`, and `new Date(s).toISOString()`), and proves properties of it.

Modelling conventions:
* JS strings are Lean `String`s; the host string functions are modelled on the
  ASCII fragment (the only fragment the program's column names and values
  exercise).
* `parseFloat` is modelled as `jsParseFloat : String → Option ℚ`, where `none`
  models the JS result `NaN` (no leading numeric literal).
* `new Date(s).toISOString()` is modelled as `jsDateToISO : String → Option
  String` on the ISO-8601 subset `YYYY-MM-DD`, `YYYY-MM-DDTHH:MM(:SS(.f+)?)?Z`
  of the ECMAScript date-time string format; `none` models an invalid date, on
  which `toISOString` throws a `RangeError`.
* A CSV record is an association list of (column name, value) pairs in the
  object's key-insertion order; `process.env` fallbacks are `Option String`.
-/

namespace Bpu

/-- ASCII whitespace recognized by the JS string `trim` (space, tab, LF, CR,
vertical tab, form feed). -/
def isJsWs (c : Char) : Bool :=
  c = ' ' || c = '\t' || c = '\n' || c = '\r' || c = '\x0b' || c = '\x0c'

/-- Trim on character lists: drop JS whitespace from the front, then from the
back. -/
def trimChars (l : List Char) : List Char :=
  List.rdropWhile isJsWs (l.dropWhile isJsWs)

/-- Model of the JS `String.prototype.trim`. -/
def jsTrim (s : String) : String := ⟨trimChars s.data⟩

/-- Model of the JS `String.prototype.toLowerCase` (ASCII fragment). -/
def jsToLower (s : String) : String := ⟨s.data.map Char.toLower⟩

/-- `removeFirstDollar l` deletes the first `'$'` of `l`, modelling the JS
`s.replace('$', '')` (which replaces only the first occurrence). -/
def removeFirstDollar : List Char → List Char
  | [] => []
  | c :: cs => if c = '$' then cs else c :: removeFirstDollar cs

/-- Model of the JS `s.replace('$', '')` used on cost strings. -/
def jsReplaceDollar (s : String) : String := ⟨removeFirstDollar s.data⟩

/-- Numeric value of a list of decimal digit characters. -/
def digitsToNat (l : List Char) : Nat :=
  l.foldl (fun n c => n * 10 + (c.toNat - 48)) 0

/-- Parse an optional leading sign; `true` means negative. -/
def parseSign : List Char → Bool × List Char
  | '-' :: rest => (true, rest)
  | '+' :: rest => (false, rest)
  | l => (false, l)

/-- Parse an optional exponent part (`e`/`E`, optional sign, digits). Returns
`none` when no well-formed exponent starts here, in which case `parseFloat`
stops before it. -/
def parseExponent : List Char → Option Int
  | c :: rest =>
    if c = 'e' || c = 'E' then
      let (neg, rest') := parseSign rest
      let ds := rest'.takeWhile Char.isDigit
      if ds.isEmpty then none
      else some (if neg then -(digitsToNat ds : Int) else (digitsToNat ds : Int))
    else none
  | [] => none

/-- Model of the JS `parseFloat`: skip leading whitespace, optional sign,
longest prefix `digits [. digits] [exponent]` (at least one digit overall);
`none` models `NaN`. The JS `"Infinity"` literal is not modelled. The value
`± (intDigits.fracDigits) × 10^exp` is built with `mkRat` so that it is a bare
integer computation followed by one rational normalization. -/
def jsParseFloat (s : String) : Option ℚ :=
  let l := s.data.dropWhile isJsWs
  let (neg, l1) := parseSign l
  let intDs := l1.takeWhile Char.isDigit
  let l2 := l1.dropWhile Char.isDigit
  let (fracDs, l3) :=
    match l2 with
    | '.' :: rest => (rest.takeWhile Char.isDigit, rest.dropWhile Char.isDigit)
    | _ => ([], l2)
  if intDs.isEmpty && fracDs.isEmpty then none
  else
    let m : Nat := digitsToNat intDs * 10 ^ fracDs.length + digitsToNat fracDs
    let sm : Int := if neg then -(m : Int) else (m : Int)
    some (match (parseExponent l3).getD 0 with
      | Int.ofNat e => mkRat (sm * 10 ^ e) (10 ^ fracDs.length)
      | Int.negSucc e => mkRat sm (10 ^ fracDs.length * 10 ^ (e + 1)))

/-- Left-pad the decimal rendering of `n` to two digits. -/
def pad2 (n : Nat) : String := if n < 10 then "0" ++ toString n else toString n

/-- Left-pad the decimal rendering of `n` to three digits. -/
def pad3 (n : Nat) : String :=
  if n < 10 then "00" ++ toString n else if n < 100 then "0" ++ toString n else toString n

/-- Left-pad the decimal rendering of `n` to four digits. -/
def pad4 (n : Nat) : String :=
  if n < 10 then "000" ++ toString n
  else if n < 100 then "00" ++ toString n
  else if n < 1000 then "0" ++ toString n
  else toString n

/-- Render date-time components the way `Date.prototype.toISOString` does. -/
def renderISO (y mo d h mi s ms : Nat) : String :=
  pad4 y ++ "-" ++ pad2 mo ++ "-" ++ pad2 d ++ "T" ++ pad2 h ++ ":" ++ pad2 mi ++ ":" ++
    pad2 s ++ "." ++ pad3 ms ++ "Z"

/-- Parse exactly two decimal digits. -/
def parse2 : List Char → Option (Nat × List Char)
  | a :: b :: rest =>
    if a.isDigit && b.isDigit then some ((a.toNat - 48) * 10 + (b.toNat - 48), rest) else none
  | _ => none

/-- Days in a month, with Gregorian leap years. -/
def daysInMonth (y mo : Nat) : Nat :=
  if mo = 2 then (if y % 4 = 0 && (y % 100 ≠ 0 || y % 400 = 0) then 29 else 28)
  else if mo = 4 || mo = 6 || mo = 9 || mo = 11 then 30
  else 31

/-- Parse the optional time-of-day part after the `T`: `HH:MM`, `HH:MM:SS`, or
`HH:MM:SS.f+`, necessarily followed by `Z` and end of input. -/
def parseTimePart (l : List Char) : Option (Nat × Nat × Nat × Nat) := do
  let (h, l1) ← parse2 l
  if h ≥ 24 then none else
  match l1 with
  | ':' :: l2 => do
    let (mi, l3) ← parse2 l2
    if mi ≥ 60 then none else
    match l3 with
    | ['Z'] => some (h, mi, 0, 0)
    | ':' :: l4 => do
      let (s, l5) ← parse2 l4
      if s ≥ 60 then none else
      match l5 with
      | ['Z'] => some (h, mi, s, 0)
      | '.' :: l6 =>
        let ds := l6.takeWhile Char.isDigit
        let rest := l6.dropWhile Char.isDigit
        if ds.isEmpty then none
        else if rest = ['Z'] then
          some (h, mi, s, digitsToNat ((ds.take 3) ++ List.replicate (3 - ds.length) '0'))
        else none
      | _ => none
    | _ => none
  | _ => none

/-- Parse an ISO-8601 date or date-time string into its components
`(year, month, day, hour, minute, second, millisecond)`, validating ranges the
way the ECMAScript date-time string parser does. -/
def parseJsDate (s : String) : Option (Nat × Nat × Nat × Nat × Nat × Nat × Nat) := do
  match s.data with
  | y1 :: y2 :: y3 :: y4 :: '-' :: rest =>
    if !(y1.isDigit && y2.isDigit && y3.isDigit && y4.isDigit) then none else
    let y := digitsToNat [y1, y2, y3, y4]
    let (mo, r1) ← parse2 rest
    if mo < 1 || mo > 12 then none else
    match r1 with
    | '-' :: r2 => do
      let (d, r3) ← parse2 r2
      if d < 1 || d > daysInMonth y mo then none else
      match r3 with
      | [] => some (y, mo, d, 0, 0, 0, 0)
      | 'T' :: r4 => do
        let (h, mi, sec, ms) ← parseTimePart r4
        some (y, mo, d, h, mi, sec, ms)
      | _ => none
    | _ => none
  | _ => none

/-- Model of `new Date(s).toISOString()` on the ISO-8601 subset
`YYYY-MM-DD` (UTC) and `YYYY-MM-DDTHH:MM(:SS(.f+)?)?Z`. `none` models an
invalid date (`toISOString` throws a `RangeError` there). Date-times without
the trailing `Z` (local time) and the many legacy non-ISO formats JS also
accepts are outside the modelled subset. -/
def jsDateToISO (s : String) : Option String :=
  (parseJsDate s).map fun c =>
    renderISO c.1 c.2.1 c.2.2.1 c.2.2.2.1 c.2.2.2.2.1 c.2.2.2.2.2.1 c.2.2.2.2.2.2

/-- Fallback configuration read from the environment (`BPU_ACCOUNT_NUMBER`,
`BPU_METER_ID`); `none` models an unset variable. -/
structure Config where
  accountFallback : Option String
  meterFallback : Option String
deriving DecidableEq, Repr

/-- A raw parsed CSV record: (column name, value) pairs in key-insertion
order. -/
abbrev RawRecord := List (String × String)

/-- Key normalization applied in the `for (const keyInRecord in record)` loop:
`keyInRecord.toLowerCase().trim()`. -/
def normKey (k : String) : String := jsTrim (jsToLower k)

/-- `normalizedRecord` lookup: the loop writes `normalizedRecord[normKey k] =
record[k]` in key order, so a later column whose normalized name collides
overwrites an earlier one (last write wins). -/
def normLookup (rec : RawRecord) (q : String) : Option String :=
  rec.foldl (fun acc kv => if normKey kv.1 = q then some kv.2 else acc) none

/-- JS `a || b` on string-or-undefined values: `a` unless it is falsy
(undefined or the empty string). -/
def jsOrStr (a b : Option String) : Option String :=
  match a with
  | some s => if s = "" then b else some s
  | none => b

/-- JS truthiness of a string-or-undefined value. -/
def truthy : Option String → Bool
  | some s => s ≠ ""
  | none => false

/-- `accountNumber = normalizedRecord['account number'] ||
BPU_ACCOUNT_NUMBER_FALLBACK` (scraper.ts line 1082). -/
def accountOf (rec : RawRecord) (cfg : Config) : Option String :=
  jsOrStr (normLookup rec "account number") cfg.accountFallback

/-- `meterId = normalizedRecord['meter'] || BPU_METER_ID_FALLBACK`
(scraper.ts line 1083). -/
def meterOf (rec : RawRecord) (cfg : Config) : Option String :=
  jsOrStr (normLookup rec "meter") cfg.meterFallback

/-- `startDateTimeString = normalizedRecord['start']` (scraper.ts line 1084). -/
def startStrOf (rec : RawRecord) : Option String :=
  normLookup rec "start"

/-- Value of a numeric destination column (`Usage` / `Cost`): JS `null`, JS
`NaN`, or a number. -/
inductive NumField where
  | null
  | nan
  | num (q : ℚ)
deriving DecidableEq, Repr

/-- `'Usage': ccfValueFromCsv ? parseFloat(ccfValueFromCsv) : null`
(scraper.ts line 1114). -/
def usageOf (ccf : Option String) : NumField :=
  match ccf with
  | some s =>
    if s = "" then .null else
      match jsParseFloat s with
      | some q => .num q
      | none => .nan
  | none => .null

/-- `'Cost': costStringFromCsv ? parseFloat(costStringFromCsv.replace('$', ''))
: null` (scraper.ts line 1115). -/
def costOf (cost : Option String) : NumField :=
  match cost with
  | some s =>
    if s = "" then .null else
      match jsParseFloat (jsReplaceDollar s) with
      | some q => .num q
      | none => .nan
  | none => .null

/-- The destination row shape (`supabaseData`, scraper.ts lines 1103–1116);
field names follow the destination column names. -/
structure SupabaseRow where
  start : String
  accountNumber : String
  name : Option String
  meter : String
  location : Option String
  address : Option String
  estimatedIndicator : Option String
  ccf : Option String
  dollar : Option String
  uom : String
  usage : NumField
  cost : NumField
deriving DecidableEq, Repr

/-- Outcome of the `records.map` callback on one record: a row, `null` (the
record is skipped), or a thrown exception (`toISOString` on an invalid
date). -/
inductive RowResult where
  | ok (r : SupabaseRow)
  | skip
  | err
deriving DecidableEq, Repr

/-- One iteration of the `records.map` callback (scraper.ts lines 1071–1117):
normalize keys, resolve fields, return `null` when a primary-key component is
falsy, otherwise build `supabaseData` — where `new Date(start).toISOString()`
throws on an unparseable date string (`RowResult.err`). -/
def processRecord (cfg : Config) (rec : RawRecord) : RowResult :=
  if truthy (accountOf rec cfg) && truthy (meterOf rec cfg) && truthy (startStrOf rec) then
    match jsDateToISO ((startStrOf rec).getD "") with
    | none => .err
    | some iso =>
      .ok {
        start := iso
        accountNumber := (accountOf rec cfg).getD ""
        name := normLookup rec "name"
        meter := (meterOf rec cfg).getD ""
        location := normLookup rec "location"
        address := normLookup rec "address"
        estimatedIndicator := normLookup rec "estimated indicator"
        ccf := normLookup rec "ccf"
        dollar := normLookup rec "$"
        uom := "CCF"
        usage := usageOf (normLookup rec "ccf")
        cost := costOf (normLookup rec "$") }
  else .skip

/-- `dataToUpsert = records.map(...).filter(record => record !== null)`
(scraper.ts lines 1071–1118). The result is the retained batch together with
the number of skipped (`null`) records — in the script that count is obtainable
as `records.length - dataToUpsert.length`; it is returned explicitly here to
state the batch-builder contract. `none` models the thrown `RangeError`
aborting the whole `map`. -/
def dataToUpsert (cfg : Config) (records : List RawRecord) :
    Option (List SupabaseRow × Nat) :=
  match records with
  | [] => some ([], 0)
  | r :: rs =>
    match processRecord cfg r with
    | .err => none
    | .skip => (dataToUpsert cfg rs).map (fun p => (p.1, p.2 + 1))
    | .ok row => (dataToUpsert cfg rs).map (fun p => (row :: p.1, p.2))

/-- Model of the configured CSV parse stage (scraper.ts lines 1059–1066):
`csv-parse` with `columns: header => header.map(h => h.trim())` and
`trim: true`, pairing trimmed header names with trimmed cell values. -/
def parseRecords (header : List String) (rows : List (List String)) :
    List RawRecord :=
  rows.map (fun cells => List.zip (header.map jsTrim) (cells.map jsTrim))

/-- A configuration with neither environment fallback set. -/
def cfgNone : Config := ⟨none, none⟩

/-- A configuration with both environment fallbacks set. -/
def cfgFb : Config := ⟨some "FBA", some "FBM"⟩

/-! ### Lemmas about the string primitives -/

/-- `rdropWhile` keeps an initial segment of the list. -/
lemma rdrop_concat (p : Char → Bool) (d : List Char) :
    ∃ t, List.rdropWhile p d ++ t = d := by
  obtain ⟨t, ht⟩ := List.dropWhile_suffix (l := d.reverse) p
  refine ⟨t.reverse, ?_⟩
  have : (t ++ d.reverse.dropWhile p).reverse = d := by rw [ht, List.reverse_reverse]
  simpa [List.rdropWhile, List.reverse_append] using this

/-- The head of a trimmed character list is not whitespace. -/
lemma trim_head_not_ws (l : List Char) (c : Char) (cs : List Char)
    (h : trimChars l = c :: cs) : ¬ isJsWs c = true := by
  obtain ⟨t, ht⟩ := rdrop_concat isJsWs (l.dropWhile isJsWs)
  rw [trimChars] at h
  rw [h] at ht
  have hne : l.dropWhile isJsWs ≠ [] := by
    rw [← ht]; simp
  have hhd := List.head_dropWhile_not isJsWs l hne
  have hc : (l.dropWhile isJsWs).head hne = c := by
    have ht' : l.dropWhile isJsWs = c :: (cs ++ t) := ht.symm
    simp [ht']
  rw [hc] at hhd
  simp [hhd]

/-- Dropping leading whitespace from an already-trimmed list is the
identity. -/
lemma dropWhile_trimChars (l : List Char) :
    (trimChars l).dropWhile isJsWs = trimChars l := by
  cases h : trimChars l with
  | nil => rfl
  | cons c cs =>
    have := trim_head_not_ws l c cs h
    simp [List.dropWhile_cons, this]

/-- `trimChars` is idempotent. -/
lemma trimChars_idem (l : List Char) : trimChars (trimChars l) = trimChars l := by
  show List.rdropWhile isJsWs ((trimChars l).dropWhile isJsWs) = trimChars l
  rw [dropWhile_trimChars, trimChars]
  exact List.rdropWhile_idempotent isJsWs _

/-- `jsTrim` is idempotent. -/
lemma jsTrim_idem (s : String) : jsTrim (jsTrim s) = jsTrim s := by
  show (⟨trimChars (trimChars s.data)⟩ : String) = ⟨trimChars s.data⟩
  rw [trimChars_idem]

/-- A string ending in `"Z"` is not empty. -/
lemma append_Z_ne_empty (x : String) : x ++ "Z" ≠ "" := by
  intro h
  have hd : (x ++ "Z").data = ("" : String).data := by rw [h]
  rw [String.data_append] at hd
  simp at hd

/-- A successfully-rendered ISO timestamp is a nonempty string. -/
lemma jsDateToISO_ne_empty {s iso : String} (h : jsDateToISO s = some iso) :
    iso ≠ "" := by
  obtain ⟨c, _, rfl⟩ := Option.map_eq_some'.mp h
  exact append_Z_ne_empty _

/-! ### Lemmas about the normalized-key lookup -/

/-- The `normalizedRecord` fold only depends on normalized keys and values. -/
lemma normLookup_foldl_congr {r r' : RawRecord}
    (h : List.Forall₂ (fun kv kv' : String × String =>
      normKey kv.1 = normKey kv'.1 ∧ kv.2 = kv'.2) r r') (q : String) :
    ∀ acc : Option String,
      r.foldl (fun acc kv => if normKey kv.1 = q then some kv.2 else acc) acc =
      r'.foldl (fun acc kv => if normKey kv.1 = q then some kv.2 else acc) acc := by
  induction h with
  | nil => intro acc; rfl
  | cons hkv _ ih =>
    intro acc
    simp only [List.foldl_cons]
    rw [hkv.1, hkv.2]
    exact ih _

/-- Records whose keys agree up to normalization (and whose values agree)
have identical normalized lookups. -/
lemma normLookup_congr {r r' : RawRecord}
    (h : List.Forall₂ (fun kv kv' : String × String =>
      normKey kv.1 = normKey kv'.1 ∧ kv.2 = kv'.2) r r') (q : String) :
    normLookup r q = normLookup r' q :=
  normLookup_foldl_congr h q none

/-- If no key of the record normalizes to `q`, the lookup is `none`. -/
lemma normLookup_eq_none (rec : RawRecord) (q : String)
    (h : ∀ kv ∈ rec, normKey kv.1 ≠ q) : normLookup rec q = none := by
  induction rec with
  | nil => rfl
  | cons a t ih =>
    have ha : normKey a.1 ≠ q := h a (by simp)
    show List.foldl _ (if normKey a.1 = q then some a.2 else none) t = none
    rw [if_neg ha]
    exact ih fun kv hkv => h kv (by simp [hkv])

/-- The `normalizedRecord` fold realizes a "last write wins" lookup: it finds
the value of the last column whose normalized name matches. -/
lemma normLookup_foldl_eq_findLast (rec : RawRecord) (q : String) :
    ∀ acc : Option String,
      rec.foldl (fun acc kv => if normKey kv.1 = q then some kv.2 else acc) acc =
      ((rec.reverse.find? fun kv => normKey kv.1 == q).map Prod.snd).or acc := by
  induction rec with
  | nil => intro acc; simp
  | cons a t ih =>
    intro acc
    simp only [List.foldl_cons, List.reverse_cons, List.find?_append, ih]
    cases hf : t.reverse.find? fun kv => normKey kv.1 == q with
    | some x => simp
    | none =>
      by_cases hq : normKey a.1 = q
      · simp [List.find?_cons, hq]
      · simp [List.find?_cons, hq]

/-! ### Lemmas about the batch builder -/

/-- If any record makes the `map` callback throw, the whole batch computation
fails, wherever that record sits in the input. -/
lemma dataToUpsert_err_of_mem (cfg : Config) (pre : List RawRecord)
    (rec : RawRecord) (rs : List RawRecord)
    (h : processRecord cfg rec = .err) :
    dataToUpsert cfg (pre ++ rec :: rs) = none := by
  induction pre with
  | nil => simp [dataToUpsert, h]
  | cons a t ih =>
    show dataToUpsert cfg (a :: (t ++ rec :: rs)) = none
    cases hpa : processRecord cfg a <;> simp [dataToUpsert, hpa, ih]

/-- A truthy optional string is a present, nonempty string. -/
lemma truthy_getD {o : Option String} (h : truthy o = true) : o.getD "" ≠ "" := by
  cases o with
  | none => simp [truthy] at h
  | some s => simpa [truthy] using h

/-- The key-field components of any row built by the `map` callback are
nonempty strings. -/
lemma processRecord_ok_fields (cfg : Config) (rec : RawRecord) (row : SupabaseRow)
    (h : processRecord cfg rec = .ok row) :
    row.accountNumber ≠ "" ∧ row.meter ≠ "" ∧ row.start ≠ "" := by
  unfold processRecord at h
  by_cases hg : (truthy (accountOf rec cfg) && truthy (meterOf rec cfg) &&
      truthy (startStrOf rec)) = true
  · rw [if_pos hg] at h
    have hg1 : truthy (accountOf rec cfg) = true := by
      simp only [Bool.and_eq_true] at hg; exact hg.1.1
    have hg2 : truthy (meterOf rec cfg) = true := by
      simp only [Bool.and_eq_true] at hg; exact hg.1.2
    cases hiso : jsDateToISO ((startStrOf rec).getD "") with
    | none => rw [hiso] at h; cases h
    | some iso =>
      rw [hiso] at h
      cases h
      exact ⟨truthy_getD hg1, truthy_getD hg2, jsDateToISO_ne_empty hiso⟩
  · rw [if_neg hg] at h; cases h

/-! ### Concrete records used in the claim theorems -/

/-- A record whose usage column holds a non-empty string `parseFloat` cannot
parse. -/
def recUnparseableUsage : RawRecord :=
  [("Account Number", "A1"), ("Meter", "M1"), ("Start", "2024-01-01"), ("CCF", "abc")]

/-- The destination row the pipeline builds for `recUnparseableUsage`. -/
def rowUnparseableUsage : SupabaseRow :=
  ⟨"2024-01-01T00:00:00.000Z", "A1", none, "M1", none, none, none, some "abc",
   none, "CCF", .nan, .null⟩

/-- A record whose start column is present but not a parseable date. -/
def recBadStart : RawRecord :=
  [("Account Number", "A1"), ("Meter", "M1"), ("Start", "not-a-date")]

/-- A fully well-formed record. -/
def recGoodStart : RawRecord :=
  [("Account Number", "A2"), ("Meter", "M2"), ("Start", "2024-01-02")]

/-- The destination row the pipeline builds for `recGoodStart`. -/
def rowGoodStart : SupabaseRow :=
  ⟨"2024-01-02T00:00:00.000Z", "A2", none, "M2", none, none, none, none, none,
   "CCF", .null, .null⟩

/-- A well-formed record used as the C3 witness. -/
def recKeysPresent : RawRecord :=
  [("account number", "A9"), ("meter", "M9"), ("start", "2024-03-05")]

/-- The destination row the pipeline builds for `recKeysPresent`. -/
def rowKeysPresent : SupabaseRow :=
  ⟨"2024-03-05T00:00:00.000Z", "A9", none, "M9", none, none, none, none, none,
   "CCF", .null, .null⟩

/-- A record missing the start column entirely (and with no fallback for it). -/
def recNoStart : RawRecord := [("account number", "A1"), ("meter", "M1")]

/-! ### C1 -/

/-- **C1**, counterexample: for the concrete record whose `CCF` column holds
the non-empty unparseable string `"abc"`, the row IS kept in the batch, but its
`Usage` field is `NaN`, not absent (`null`) as the claim states. -/
theorem usage_unparseable_nan_not_null_cex :
    dataToUpsert cfgNone [recUnparseableUsage] = some ([rowUnparseableUsage], 0) ∧
    rowUnparseableUsage.usage = NumField.nan ∧
    rowUnparseableUsage.usage ≠ NumField.null :=
  ⟨by decide, by decide, by decide⟩

/-- **C1** (amended): for every raw CSV row whose usage or cost column holds a
non-empty string that cannot be parsed as a number, the corresponding output
field (Usage / Cost) is set to `NaN` (not to absent/null), and the row is still
included in the output batch (not skipped). -/
theorem unparseable_numeric_keeps_row (cfg : Config) (rec : RawRecord) (iso : String)
    (hg : (truthy (accountOf rec cfg) && truthy (meterOf rec cfg) &&
        truthy (startStrOf rec)) = true)
    (hiso : jsDateToISO ((startStrOf rec).getD "") = some iso) :
    ∃ row, processRecord cfg rec = .ok row ∧
      (∀ s, normLookup rec "ccf" = some s → s ≠ "" → jsParseFloat s = none →
        row.usage = NumField.nan) ∧
      (∀ s, normLookup rec "$" = some s → s ≠ "" →
        jsParseFloat (jsReplaceDollar s) = none → row.cost = NumField.nan) ∧
      (∀ rest, dataToUpsert cfg (rec :: rest) =
        (dataToUpsert cfg rest).map fun p => (row :: p.1, p.2)) := by
  have hok : processRecord cfg rec = .ok
      ⟨iso, (accountOf rec cfg).getD "", normLookup rec "name",
       (meterOf rec cfg).getD "", normLookup rec "location",
       normLookup rec "address", normLookup rec "estimated indicator",
       normLookup rec "ccf", normLookup rec "$", "CCF",
       usageOf (normLookup rec "ccf"), costOf (normLookup rec "$")⟩ := by
    unfold processRecord
    rw [if_pos hg, hiso]
  refine ⟨_, hok, ?_, ?_, ?_⟩
  · intro s hs hne hp
    show usageOf (normLookup rec "ccf") = NumField.nan
    rw [hs]
    simp [usageOf, hne, hp]
  · intro s hs hne hp
    show costOf (normLookup rec "$") = NumField.nan
    rw [hs]
    simp [costOf, hne, hp]
  · intro rest
    simp [dataToUpsert, hok]

/-- Witness for `unparseable_numeric_keeps_row` at a concrete record. -/
theorem unparseable_numeric_keeps_row_witness :
    processRecord cfgNone recUnparseableUsage = .ok rowUnparseableUsage ∧
    rowUnparseableUsage.usage = NumField.nan ∧
    dataToUpsert cfgNone [recUnparseableUsage] = some ([rowUnparseableUsage], 0) := by
  obtain ⟨row, hok, hu, -, hb⟩ := unparseable_numeric_keeps_row cfgNone
    recUnparseableUsage "2024-01-01T00:00:00.000Z" (by decide) (by decide)
  have h2 : processRecord cfgNone recUnparseableUsage = .ok rowUnparseableUsage := by decide
  rw [hok] at h2
  injection h2 with hrow
  subst hrow
  refine ⟨hok, hu "abc" (by decide) (by decide) (by decide), ?_⟩
  have := hb []
  simpa [dataToUpsert] using this

/-! ### C2 -/

/-- **C2**, counterexample: a present-but-unparseable start string does not
lead to the row being skipped with processing continuing — it makes the whole
batch computation fail (`new Date(...).toISOString()` throws), even though the
other record in the batch is perfectly fine. -/
theorem bad_start_aborts_batch_cex :
    dataToUpsert cfgNone [recBadStart, recGoodStart] = none ∧
    processRecord cfgNone recGoodStart = .ok rowGoodStart :=
  ⟨by decide, by decide⟩

/-- **C2** (amended): for every raw CSV row whose start date/time string is
present (and whose key fields pass the truthiness check) but cannot be parsed
as a calendar date/time, the per-row computation raises an error and the whole
batch computation is aborted (yields no batch), wherever the row sits in the
input; only rows with missing/empty key fields are skipped with processing
continuing. -/
theorem bad_start_aborts_batch (cfg : Config) (rec : RawRecord)
    (hg : (truthy (accountOf rec cfg) && truthy (meterOf rec cfg) &&
        truthy (startStrOf rec)) = true)
    (hbad : jsDateToISO ((startStrOf rec).getD "") = none) :
    processRecord cfg rec = .err ∧
    ∀ pre rs, dataToUpsert cfg (pre ++ rec :: rs) = none := by
  have herr : processRecord cfg rec = .err := by
    unfold processRecord
    rw [if_pos hg, hbad]
  exact ⟨herr, fun pre rs => dataToUpsert_err_of_mem cfg pre rec rs herr⟩

/-- Witness for `bad_start_aborts_batch` at a concrete record. -/
theorem bad_start_aborts_batch_witness :
    processRecord cfgNone recBadStart = .err ∧
    dataToUpsert cfgNone ([recGoodStart] ++ recBadStart :: []) = none :=
  ⟨(bad_start_aborts_batch cfgNone recBadStart (by decide) (by decide)).1,
   (bad_start_aborts_batch cfgNone recBadStart (by decide) (by decide)).2
     [recGoodStart] []⟩

/-! ### C3 -/

/-- **C3**: whenever the batch computation succeeds, every row of the output
batch has all three key components (account number, meter id, start timestamp)
resolved to non-absent (nonempty) values; rows lacking any of them never appear
in the batch. -/
theorem batch_rows_have_key_fields (cfg : Config) (records : List RawRecord)
    (batch : List SupabaseRow) (n : Nat)
    (h : dataToUpsert cfg records = some (batch, n)) :
    ∀ row ∈ batch, row.accountNumber ≠ "" ∧ row.meter ≠ "" ∧ row.start ≠ "" := by
  induction records generalizing batch n with
  | nil =>
    simp only [dataToUpsert, Option.some.injEq, Prod.mk.injEq] at h
    rw [← h.1]
    intro row hr
    cases hr
  | cons r rs ih =>
    cases hpr : processRecord cfg r with
    | err =>
      simp only [dataToUpsert, hpr] at h
      exact Option.noConfusion h
    | skip =>
      simp only [dataToUpsert, hpr] at h
      obtain ⟨⟨b', n'⟩, hp, heq⟩ := Option.map_eq_some'.mp h
      obtain ⟨hb, -⟩ := Prod.mk.injEq .. |>.mp heq
      rw [← hb]
      exact ih b' n' hp
    | ok row0 =>
      simp only [dataToUpsert, hpr] at h
      obtain ⟨⟨b', n'⟩, hp, heq⟩ := Option.map_eq_some'.mp h
      obtain ⟨hb, -⟩ := Prod.mk.injEq .. |>.mp heq
      rw [← hb]
      intro row hr
      rcases List.mem_cons.mp hr with hhd | htl
      · rw [hhd]
        exact processRecord_ok_fields cfg r row0 hpr
      · exact ih b' n' hp row htl

/-- Witness for `batch_rows_have_key_fields` at a concrete batch. -/
theorem batch_rows_have_key_fields_witness :
    rowKeysPresent.accountNumber ≠ "" ∧ rowKeysPresent.meter ≠ "" ∧
    rowKeysPresent.start ≠ "" :=
  batch_rows_have_key_fields cfgNone [recKeysPresent] [rowKeysPresent] 0
    (by decide) rowKeysPresent (by simp)

/-! ### C4 -/

/-- **C4**: the batch builder yields the skipped-record count alongside the
batch (in the script: `records.length - dataToUpsert.length`, formalized here
by the second conjunct); every rejected row is excluded from the batch with the
skipped count incremented by exactly 1, the rest of the batch unchanged. -/
theorem skipped_count_obtainable (cfg : Config) :
    (∀ rec rest, processRecord cfg rec = .skip →
      dataToUpsert cfg (rec :: rest) =
        (dataToUpsert cfg rest).map fun p => (p.1, p.2 + 1)) ∧
    (∀ records batch n, dataToUpsert cfg records = some (batch, n) →
      batch.length + n = records.length) := by
  constructor
  · intro rec rest hskip
    simp [dataToUpsert, hskip]
  · intro records
    induction records with
    | nil =>
      intro batch n h
      simp only [dataToUpsert, Option.some.injEq, Prod.mk.injEq] at h
      rw [← h.1, ← h.2]
      rfl
    | cons r rs ih =>
      intro batch n h
      cases hpr : processRecord cfg r with
      | err =>
        simp only [dataToUpsert, hpr] at h
        exact Option.noConfusion h
      | skip =>
        simp only [dataToUpsert, hpr] at h
        obtain ⟨⟨b', n'⟩, hp, heq⟩ := Option.map_eq_some'.mp h
        obtain ⟨hb, hn⟩ := Prod.mk.injEq .. |>.mp heq
        rw [← hb, ← hn]
        have := ih b' n' hp
        simp only [List.length_cons]
        omega
      | ok row0 =>
        simp only [dataToUpsert, hpr] at h
        obtain ⟨⟨b', n'⟩, hp, heq⟩ := Option.map_eq_some'.mp h
        obtain ⟨hb, hn⟩ := Prod.mk.injEq .. |>.mp heq
        rw [← hb, ← hn]
        have := ih b' n' hp
        simp only [List.length_cons]
        omega

/-- Witness for `skipped_count_obtainable` at a concrete rejected record. -/
theorem skipped_count_obtainable_witness :
    dataToUpsert cfgNone (recNoStart :: []) =
      (dataToUpsert cfgNone []).map (fun p => (p.1, p.2 + 1)) ∧
    ([] : List SupabaseRow).length + 1 = [recNoStart].length :=
  ⟨(skipped_count_obtainable cfgNone).1 recNoStart [] (by decide),
   (skipped_count_obtainable cfgNone).2 [recNoStart] [] 1 (by decide)⟩

/-! ### C5 -/

/-- A record using only the alternative candidate column names the spec lists
("account", "meter id", "start date", "start time", "usage", "consumption"). -/
def recAltNames : RawRecord :=
  [("Account", "123"), ("Meter ID", "M1"), ("Start Date", "2024-01-01"),
   ("Start Time", "00:00"), ("Usage", "10"), ("Consumption", "10")]

/-- A record using the canonical column names the code actually consults. -/
def recCanonical : RawRecord :=
  [("account number", "123"), ("meter", "M1"), ("start", "2024-01-01"),
   ("ccf", "10"), ("$", "2")]

/-- The destination row the pipeline builds for `recCanonical`. -/
def rowCanonical : SupabaseRow :=
  ⟨"2024-01-01T00:00:00.000Z", "123", none, "M1", none, none, none, some "10",
   some "2", "CCF", .num 10, .num 2⟩

/-- **C5**, counterexample: the secondary candidate names are not consulted.
A record carrying the values under "account", "meter id", "start date",
"start time", "usage", "consumption" resolves none of the key fields, so the
row is skipped with no fallback configured — under the claimed ordered
candidate lists it would have been fully resolved and kept. -/
theorem alt_candidate_names_cex :
    dataToUpsert cfgNone [recAltNames] = some ([], 1) ∧
    accountOf recAltNames cfgNone = none ∧
    meterOf recAltNames cfgNone = none ∧
    startStrOf recAltNames = none :=
  ⟨by decide, by decide, by decide, by decide⟩

/-- **C5** (amended): each key field is resolved from exactly one canonical
column name — account number from "account number", meter id from "meter",
start timestamp from "start", usage from "ccf", cost from "$" — and only the
account-number and meter-id resolutions fall back to the configured default;
the alternative names "account", "meter id", "start date", "start time",
"usage", "consumption" are never consulted. -/
theorem single_canonical_name_resolution :
    (∀ (cfg : Config) (a m s s' u c : String),
      processRecord cfg [("account", a), ("meter id", m), ("start date", s),
        ("start time", s'), ("usage", u), ("consumption", c)] = .skip) ∧
    (∀ v : String, v ≠ "" →
      accountOf [("account number", v)] cfgFb = some v ∧
      meterOf [("meter", v)] cfgFb = some v) ∧
    (accountOf [] cfgFb = some "FBA" ∧ meterOf [] cfgFb = some "FBM") ∧
    processRecord cfgNone recCanonical = .ok rowCanonical := by
  refine ⟨?_, ?_, ⟨by decide, by decide⟩, by decide⟩
  · intro cfg a m s s' u c
    have hstart : startStrOf [("account", a), ("meter id", m), ("start date", s),
        ("start time", s'), ("usage", u), ("consumption", c)] = none := by
      apply normLookup_eq_none
      intro kv hkv
      simp only [List.mem_cons, List.not_mem_nil, or_false] at hkv
      rcases hkv with h | h | h | h | h | h <;> subst h
      · exact (by decide : normKey "account" ≠ "start")
      · exact (by decide : normKey "meter id" ≠ "start")
      · exact (by decide : normKey "start date" ≠ "start")
      · exact (by decide : normKey "start time" ≠ "start")
      · exact (by decide : normKey "usage" ≠ "start")
      · exact (by decide : normKey "consumption" ≠ "start")
    unfold processRecord
    rw [hstart]
    simp [truthy]
  · intro v hv
    have ha : normLookup [("account number", v)] "account number" = some v := by
      show (if normKey "account number" = "account number" then some v else none) = some v
      rw [if_pos (by decide)]
    have hm : normLookup [("meter", v)] "meter" = some v := by
      show (if normKey "meter" = "meter" then some v else none) = some v
      rw [if_pos (by decide)]
    constructor
    · simp [accountOf, ha, jsOrStr, hv]
    · simp [meterOf, hm, jsOrStr, hv]

/-- Witness for `single_canonical_name_resolution` at concrete values. -/
theorem single_canonical_name_resolution_witness :
    accountOf [("account number", "W5")] cfgFb = some "W5" ∧
    meterOf [("meter", "W5")] cfgFb = some "W5" :=
  single_canonical_name_resolution.2.1 "W5" (by decide)

/-! ### C6 -/

/-- The header of the spec's end-to-end scenario. -/
def headerScenario : List String := ["Account Number", "Meter", "Start", "CCF", "$"]

/-- The cells of the spec's end-to-end scenario row. -/
def cellsScenario : List String := [" 123 ", "M1", "2024-01-01T00:00:00Z", "10", "$5.00"]

/-- The destination row of the spec's end-to-end scenario. -/
def rowScenario : SupabaseRow :=
  ⟨"2024-01-01T00:00:00.000Z", "123", none, "M1", none, none, none, some "10",
   some "$5.00", "CCF", .num 10, .num 5⟩

/-- **C6**: through the configured parse stage every column name and every
field value is whitespace-trimmed (first conjunct: parsed records are fixed
points of `jsTrim` on keys and values), so the account-number value " 123 "
reaches the output row as "123" — the spec's end-to-end scenario, second
conjunct. -/
theorem pipeline_trims_keys_and_values :
    (∀ (header : List String) (rows : List (List String)) (rec : RawRecord)
        (kv : String × String), rec ∈ parseRecords header rows → kv ∈ rec →
        jsTrim kv.1 = kv.1 ∧ jsTrim kv.2 = kv.2) ∧
    dataToUpsert cfgNone (parseRecords headerScenario [cellsScenario]) =
      some ([rowScenario], 0) := by
  constructor
  · intro header rows rec kv hrec hkv
    simp only [parseRecords, List.mem_map] at hrec
    obtain ⟨cells, -, rfl⟩ := hrec
    have hkv' : (kv.1, kv.2) ∈ List.zip (header.map jsTrim) (cells.map jsTrim) := by
      simpa using hkv
    obtain ⟨h1, h2⟩ := List.of_mem_zip hkv'
    obtain ⟨k0, -, hk⟩ := List.mem_map.mp h1
    obtain ⟨v0, -, hv⟩ := List.mem_map.mp h2
    exact ⟨by rw [← hk, jsTrim_idem], by rw [← hv, jsTrim_idem]⟩
  · decide

/-- Witness for `pipeline_trims_keys_and_values` at the scenario record. -/
theorem pipeline_trims_keys_and_values_witness :
    jsTrim "Account Number" = "Account Number" ∧ jsTrim "123" = "123" :=
  pipeline_trims_keys_and_values.1 headerScenario [cellsScenario]
    (List.zip (headerScenario.map jsTrim) (cellsScenario.map jsTrim))
    ("Account Number", "123") (by decide) (by decide)

/-! ### C7 -/

/-- A record whose recognized columns differ from the canonical ones only in
letter case and surrounding whitespace. -/
def recVariantKeys : RawRecord :=
  [(" ACCOUNT NUMBER ", "123"), ("Meter", "M1"), ("START", "2024-01-01")]

/-- The exact-case, trimmed equivalent of `recVariantKeys`. -/
def recExactKeys : RawRecord :=
  [("account number", "123"), ("meter", "M1"), ("start", "2024-01-01")]

/-- **C7**: two records whose column names agree up to lowercasing and
trimming (and whose values agree) are normalized to the same result — in
particular a recognized account/meter/start column in any letter case and with
surrounding whitespace resolves like its exact-case trimmed equivalent. -/
theorem column_case_whitespace_invariant (cfg : Config) (r r' : RawRecord)
    (h : List.Forall₂ (fun kv kv' : String × String =>
      normKey kv.1 = normKey kv'.1 ∧ kv.2 = kv'.2) r r') :
    processRecord cfg r = processRecord cfg r' := by
  have hl : ∀ q, normLookup r q = normLookup r' q := fun q => normLookup_congr h q
  simp only [processRecord, accountOf, meterOf, startStrOf, hl]

/-- Witness for `column_case_whitespace_invariant` at concrete records. -/
theorem column_case_whitespace_invariant_witness :
    processRecord cfgNone recVariantKeys = processRecord cfgNone recExactKeys :=
  column_case_whitespace_invariant cfgNone recVariantKeys recExactKeys
    (by
      show List.Forall₂ _
        [(" ACCOUNT NUMBER ", "123"), ("Meter", "M1"), ("START", "2024-01-01")]
        [("account number", "123"), ("meter", "M1"), ("start", "2024-01-01")]
      exact .cons ⟨by decide, rfl⟩ (.cons ⟨by decide, rfl⟩
        (.cons ⟨by decide, rfl⟩ .nil)))

/-! ### C8 -/

/-- A record whose usage column holds the empty string. -/
def recUsageEmpty : RawRecord :=
  [("account number", "A"), ("meter", "M"), ("start", "2024-01-01"), ("ccf", "")]

/-- The destination row the pipeline builds for `recUsageEmpty`. -/
def rowUsageEmpty : SupabaseRow :=
  ⟨"2024-01-01T00:00:00.000Z", "A", none, "M", none, none, none, some "", none,
   "CCF", .null, .null⟩

/-- A record whose usage column holds the string "0". -/
def recUsageZero : RawRecord :=
  [("account number", "A"), ("meter", "M"), ("start", "2024-01-01"), ("ccf", "0")]

/-- The destination row the pipeline builds for `recUsageZero`. -/
def rowUsageZero : SupabaseRow :=
  ⟨"2024-01-01T00:00:00.000Z", "A", none, "M", none, none, none, some "0", none,
   "CCF", .num 0, .null⟩

/-- **C8**: an empty usage string yields an absent (`null`) `Usage` — not
`NaN`, not `0` — while the string "0" yields the present numeric value `0`,
which is distinct from absent. -/
theorem empty_usage_absent_zero_usage_present :
    dataToUpsert cfgNone [recUsageEmpty] = some ([rowUsageEmpty], 0) ∧
    rowUsageEmpty.usage = NumField.null ∧
    dataToUpsert cfgNone [recUsageZero] = some ([rowUsageZero], 0) ∧
    rowUsageZero.usage = NumField.num 0 ∧
    NumField.num 0 ≠ NumField.null ∧ NumField.num 0 ≠ NumField.nan :=
  ⟨by decide, by decide, by decide, by decide, by decide, by decide⟩

/-! ### C9 -/

/-- A record whose cost column holds "12.5". -/
def recCostPlain : RawRecord :=
  [("account number", "A"), ("meter", "M"), ("start", "2024-01-01"), ("$", "12.5")]

/-- The destination row the pipeline builds for `recCostPlain`. -/
def rowCostPlain : SupabaseRow :=
  ⟨"2024-01-01T00:00:00.000Z", "A", none, "M", none, none, none, none,
   some "12.5", "CCF", .null, .num (mkRat 25 2)⟩

/-- A record whose cost column holds "$12.50". -/
def recCostDollar : RawRecord :=
  [("account number", "A"), ("meter", "M"), ("start", "2024-01-01"), ("$", "$12.50")]

/-- The destination row the pipeline builds for `recCostDollar`. -/
def rowCostDollar : SupabaseRow :=
  ⟨"2024-01-01T00:00:00.000Z", "A", none, "M", none, none, none, none,
   some "$12.50", "CCF", .null, .num (mkRat 25 2)⟩

/-- **C9**: the cost strings "12.5" and "$12.50" both resolve to the numeric
cost 12.5 (= 25/2): a leading currency symbol is stripped before the numeric
parse. -/
theorem cost_strips_currency_symbol :
    dataToUpsert cfgNone [recCostPlain] = some ([rowCostPlain], 0) ∧
    dataToUpsert cfgNone [recCostDollar] = some ([rowCostDollar], 0) ∧
    (mkRat 25 2 : ℚ) = 25 / 2 :=
  ⟨by decide, by decide, by norm_num [mkRat, Rat.normalize]⟩

/-! ### C10 -/

/-- A record with two distinct column names normalizing to "account number". -/
def recDupKeys : RawRecord :=
  [("Account Number", "X"), (" ACCOUNT NUMBER", "Y"), ("Meter", "M1"),
   ("Start", "2024-01-01")]

/-- The destination row the pipeline builds for `recDupKeys`: the later
column's value "Y" wins. -/
def rowDupKeys : SupabaseRow :=
  ⟨"2024-01-01T00:00:00.000Z", "Y", none, "M1", none, none, none, none, none,
   "CCF", .null, .null⟩

/-- **C10**: when several columns normalize to the same name, normalization
does not fail; the lookup returns the value of the last such column in
key-iteration order (first conjunct: the lookup equals a backwards search),
and that value is what the field resolution and output row use (remaining
conjuncts, at a record with duplicate "account number" columns). -/
theorem duplicate_normalized_keys_last_wins :
    (∀ (rec : RawRecord) (q : String),
      normLookup rec q =
        ((rec.reverse.find? fun kv => normKey kv.1 == q).map Prod.snd)) ∧
    normLookup recDupKeys "account number" = some "Y" ∧
    processRecord cfgNone recDupKeys = .ok rowDupKeys := by
  refine ⟨?_, by decide, by decide⟩
  intro rec q
  have h := normLookup_foldl_eq_findLast rec q none
  simpa [normLookup] using h

end Bpu
